import Mathlib

/-!
Shallow embedding of the BNL container core (ghoulies_reader) in Lean 4.

Byte buffers are `List Nat` (each element intended `< 256`; the hypothesis is
carried explicitly where a theorem needs it).  Fallible Rust functions
returning `Result` are embedded as `Except`; a Rust panic (an out-of-bounds
slice index, a failed `unwrap`, a `copy_from_slice` length mismatch) is
embedded as `Option.none` wrapped around the whole call, since a panic aborts
the computation.  So a function that can both return `Err` and panic has type
`Option (Except E A)`: `none` = panic, `some (.error e)` = `Err(e)`,
`some (.ok a)` = `Ok(a)`.  In-place mutation of a buffer is embedded as
explicit state passing: the (possibly mutated) buffer is returned alongside
the result.  u32/u16 arithmetic that can overflow in Rust is taken modulo
`2 ^ 32` / `2 ^ 16` exactly where the source performs fixed-width arithmetic.
-/

/-- Sum-view of `Except`, used only to decide equality of results. -/
def exceptToSum {E A : Type} : Except E A → E ⊕ A
  | .error e => .inl e
  | .ok a => .inr a

instance {E A : Type} [DecidableEq E] [DecidableEq A] : DecidableEq (Except E A) :=
  fun x y =>
    decidable_of_iff (exceptToSum x = exceptToSum y)
      (by cases x <;> cases y <;> simp [exceptToSum])

/-- Little-endian u16 read of the first two bytes of a list (missing bytes read
as 0; every use site is guarded by the length checks the source performs). -/
def leU16 (l : List Nat) : Nat :=
  l.getD 0 0 + 256 * l.getD 1 0

/-- Little-endian u32 read of the first four bytes of a list. -/
def leU32 (l : List Nat) : Nat :=
  l.getD 0 0 + 256 * l.getD 1 0 + 65536 * l.getD 2 0 + 16777216 * l.getD 3 0

/-- Little-endian serialization of a u16 value. -/
def u16le (v : Nat) : List Nat :=
  [v % 256, v / 256 % 256]

/-- Little-endian serialization of a u32 value. -/
def u32le (v : Nat) : List Nat :=
  [v % 256, v / 256 % 256, v / 65536 % 256, v / 16777216 % 256]

/-- `buf[start .. start+src.length] = src`, everything else unchanged
(the embedding of `copy_from_slice` into a subrange of a mutable buffer;
use sites guard `start + src.length ≤ buf.length` as the source does). -/
def writeRange (buf : List Nat) (start : Nat) (src : List Nat) : List Nat :=
  buf.take start ++ src ++ buf.drop (start + src.length)

/-- Cursor `seek(Start pos)` + `read_exact(len)`: `none` is the `Err` of
`read_exact` when fewer than `len` bytes remain.  Seeking past the end
succeeds in Rust, and `read_exact` into an empty buffer succeeds at any
position, hence the `len = 0` disjunct. -/
def readExact (l : List Nat) (pos len : Nat) : Option (List Nat) :=
  if pos + len ≤ l.length ∨ len = 0 then some ((l.drop pos).take len) else none

/-- DataView (src/lib.rs): an (offset, size) pair of u32 fields. -/
structure DataView where
  offset : Nat
  size : Nat
deriving DecidableEq, Repr, Inhabited

/-- The three distinct error constructions of `DataViewList::from_bytes`
(src/asset/mod.rs): input under 8 bytes; zero views or inconsistent declared
size; fewer bytes than the record-count check demands. -/
inductive DVLError where
  | tooSmall
  | malformed
  | truncated
deriving DecidableEq, Repr

/-- VirtualResourceError (src/lib.rs). -/
inductive VRError where
  | offsetOutOfBounds
  | sizeOutOfBounds
deriving DecidableEq, Repr

/-- DataViewList (src/asset/mod.rs): declared size, declared view count and
the parsed views. -/
structure DataViewList where
  size : Nat
  numViews : Nat
  views : List DataView
deriving DecidableEq, Repr, Inhabited

/-- The record-parsing loop of `DataViewList::from_bytes`: `b` is the input
after the 8-byte header, `n` the number of records still to read.  The source
iterates `chunks(8)` and calls `chunks.next().unwrap()` then indexes
`chunk[0..4]` and `chunk[4..8]`: when fewer than 8 bytes remain the `unwrap`
(no chunk left) or the chunk indexing (short final chunk) panics, hence
`none`. -/
def parseViews (b : List Nat) : Nat → Option (List DataView)
  | 0 => some []
  | n + 1 =>
    if 8 ≤ b.length then
      (parseViews (b.drop 8) n).map
        (DataView.mk (leU32 b) (leU32 (b.drop 4)) :: ·)
    else
      none

/-- `DataViewList::from_bytes` (src/asset/mod.rs lines 31-80).  The malformed
check multiplies `num_views * 8 + 8` in u32 (release-mode wrapping, hence the
`% 2 ^ 32`); the truncation check compares `view_bytes.len()` against
`num_views as usize * 8` in usize. -/
def DataViewList.fromBytes (b : List Nat) : Option (Except DVLError DataViewList) :=
  if b.length < 8 then
    some (.error .tooSmall)
  else
    let size := leU32 b
    let numViews := leU32 (b.drop 4)
    if numViews = 0 ∨ size ≠ (numViews * 8 + 8) % 2 ^ 32 then
      some (.error .malformed)
    else if b.length < numViews * 8 then
      some (.error .truncated)
    else
      match parseViews (b.drop 8) numViews with
      | none => none
      | some vs => some (.ok ⟨size, numViews, vs⟩)

/-- `DataViewList::len` (src/asset/mod.rs): the logical length, the sum of the
view sizes. -/
def DataViewList.len (dvl : DataViewList) : Nat :=
  (dvl.views.map (·.size)).sum

/-- The per-view loop of `DataViewList::slices`: the source indexes
`&data[start..end]` with no bounds check, so a view reaching past the backing
buffer panics (`none`). -/
def slicesLoop (data : List Nat) : List DataView → Option (List (List Nat))
  | [] => some []
  | v :: rest =>
    if v.offset + v.size ≤ data.length then
      (slicesLoop data rest).map (((data.drop v.offset).take v.size) :: ·)
    else
      none

/-- `DataViewList::slices` (src/asset/mod.rs lines 82-103).  The only `Err` it
can return is the internal num_views/views-length consistency check; all
out-of-range views panic (`none`). -/
def DataViewList.slices (dvl : DataViewList) (data : List Nat) :
    Option (Except Unit (List (List Nat))) :=
  if dvl.numViews ≠ dvl.views.length then
    some (.error ())
  else
    match slicesLoop data dvl.views with
    | none => none
    | some ss => some (.ok ss)

/-- The view loop of `DataViewList::write_bytes`: `total` bytes of `bytes`
already written, `buf` the backing buffer so far.  Slicing
`&mut resource[offset..offset+size]` is unchecked, hence `none` when a view
reaches past the buffer.  Early `break` once `total` reaches `writeSize`;
the trailing `total ≠ writeSize` check of the source runs when the loop ends
without breaking. -/
def writeBytesLoop (bytes : List Nat) (writeSize : Nat) :
    List DataView → List Nat → Nat → Option (Except VRError Unit × List Nat)
  | [], buf, total =>
    if total ≠ writeSize then some (.error .sizeOutOfBounds, buf) else some (.ok (), buf)
  | v :: rest, buf, total =>
    if v.offset + v.size ≤ buf.length then
      let desired := writeSize - total
      let cpSize := min desired v.size
      let buf1 := writeRange buf v.offset ((bytes.drop total).take cpSize)
      let total1 := total + cpSize
      if total1 > writeSize then some (.error .sizeOutOfBounds, buf1)
      else if total1 = writeSize then some (.ok (), buf1)
      else writeBytesLoop bytes writeSize rest buf1 total1
    else
      none

/-- `DataViewList::write_bytes` (src/asset/mod.rs lines 105-154): the
scatter-write of `bytes` across the view ranges of `resource`.  Fails up front
with `SizeOutOfBounds` when the input length differs from the logical
length. -/
def DataViewList.writeBytes (dvl : DataViewList) (bytes resource : List Nat) :
    Option (Except VRError Unit × List Nat) :=
  if dvl.len ≠ bytes.length then
    some (.error .sizeOutOfBounds, resource)
  else
    writeBytesLoop bytes bytes.length dvl.views resource 0

/-- VirtualResource (src/lib.rs): an ordered list of borrowed byte slices,
embedded as owned lists. -/
structure VirtualResource where
  slices : List (List Nat)
deriving DecidableEq, Repr, Inhabited

/-- `VirtualResource::len`: the sum of the slice lengths. -/
def VirtualResource.len (vr : VirtualResource) : Nat :=
  (vr.slices.map (·.length)).sum

/-- `VirtualResource::is_empty`. -/
def VirtualResource.isEmpty (vr : VirtualResource) : Bool :=
  vr.len = 0

/-- The view loop of `VirtualResource::from_dvl` (src/lib.rs lines 654-677):
checks each view against the backing buffer before slicing, so it is total. -/
def fromDvlLoop (bytes : List Nat) : List DataView → Except VRError (List (List Nat))
  | [] => .ok []
  | v :: rest =>
    if v.offset > bytes.length then
      .error .offsetOutOfBounds
    else if bytes.length - v.offset < v.size then
      .error .sizeOutOfBounds
    else
      (fromDvlLoop bytes rest).map (((bytes.drop v.offset).take v.size) :: ·)

/-- `VirtualResource::from_dvl` (src/lib.rs lines 654-677). -/
def VirtualResource.fromDvl (dvl : DataViewList) (bytes : List Nat) :
    Except VRError VirtualResource :=
  (fromDvlLoop bytes dvl.views).map VirtualResource.mk

/-- `VirtualResource::from_slices`. -/
def VirtualResource.fromSlices (ss : List (List Nat)) : VirtualResource :=
  ⟨ss⟩

/-- The slice-walking loop of `VirtualResource::get_bytes` (src/lib.rs lines
679-730): `v` is the output buffer (length `getSize`), `sliceStart` the
running physical start of the current slice, `total` the bytes written so
far.  Every internal index is in bounds (see the source's min/saturating_sub
arithmetic), so the loop is total and only the declared error values
escape. -/
def getBytesLoop (startOffset getSize : Nat) :
    List (List Nat) → List Nat → Nat → Nat → Except VRError (List Nat)
  | [], v, _, total =>
    if total ≠ getSize then .error .sizeOutOfBounds else .ok v
  | s :: rest, v, sliceStart, total =>
    let sliceSize := s.length
    if sliceStart + sliceSize > startOffset then
      let desired := getSize - total
      let cpI := startOffset - sliceStart
      let cpSize := min desired (sliceSize - cpI)
      let v1 := writeRange v total ((s.drop cpI).take cpSize)
      let total1 := total + cpSize
      if total1 > getSize then .error .sizeOutOfBounds
      else if total1 = getSize then .ok v1
      else getBytesLoop startOffset getSize rest v1 (sliceStart + sliceSize) total1
    else
      getBytesLoop startOffset getSize rest v (sliceStart + sliceSize) total

/-- `VirtualResource::get_bytes` (src/lib.rs lines 679-730). -/
def VirtualResource.getBytes (vr : VirtualResource) (startOffset getSize : Nat) :
    Except VRError (List Nat) :=
  let e := vr.len
  if e < startOffset then .error .offsetOutOfBounds
  else if e - startOffset < getSize then .error .sizeOutOfBounds
  else getBytesLoop startOffset getSize vr.slices (List.replicate getSize 0) 0 0

/-- `VirtualResource::get_all_bytes` (src/lib.rs lines 732-745): concatenates
the slices into one buffer (the source copies each slice in order into a
pre-sized output, which is concatenation). -/
def VirtualResource.getAllBytes (vr : VirtualResource) : List Nat :=
  vr.slices.flatten

/-- True when `b` is a UTF-8 continuation byte (0x80-0xBF). -/
def isUtf8Cont (b : Nat) : Bool :=
  128 ≤ b && b < 192

/-- UTF-8 validity of a byte list, as checked by `std::str::from_utf8`
(RFC 3629 byte patterns). -/
def validUtf8 : List Nat → Bool
  | [] => true
  | b1 :: rest =>
    if b1 < 128 then validUtf8 rest
    else if 194 ≤ b1 && b1 ≤ 223 then
      match rest with
      | b2 :: rest2 => isUtf8Cont b2 && validUtf8 rest2
      | [] => false
    else if b1 = 224 then
      match rest with
      | b2 :: b3 :: rest3 => (160 ≤ b2 && b2 ≤ 191) && isUtf8Cont b3 && validUtf8 rest3
      | _ => false
    else if (225 ≤ b1 && b1 ≤ 236) || b1 = 238 || b1 = 239 then
      match rest with
      | b2 :: b3 :: rest3 => isUtf8Cont b2 && isUtf8Cont b3 && validUtf8 rest3
      | _ => false
    else if b1 = 237 then
      match rest with
      | b2 :: b3 :: rest3 => (128 ≤ b2 && b2 ≤ 159) && isUtf8Cont b3 && validUtf8 rest3
      | _ => false
    else if b1 = 240 then
      match rest with
      | b2 :: b3 :: b4 :: rest4 =>
        (144 ≤ b2 && b2 ≤ 191) && isUtf8Cont b3 && isUtf8Cont b4 && validUtf8 rest4
      | _ => false
    else if 241 ≤ b1 && b1 ≤ 243 then
      match rest with
      | b2 :: b3 :: b4 :: rest4 =>
        isUtf8Cont b2 && isUtf8Cont b3 && isUtf8Cont b4 && validUtf8 rest4
      | _ => false
    else if b1 = 244 then
      match rest with
      | b2 :: b3 :: b4 :: rest4 =>
        (128 ≤ b2 && b2 ≤ 143) && isUtf8Cont b3 && isUtf8Cont b4 && validUtf8 rest4
      | _ => false
    else false

/-- The discriminants accepted by `AssetType::try_from`
(src/types/game.rs): the `#[repr(u32)]` enum values. -/
def validAssetType (n : Nat) : Bool :=
  [1, 2, 3, 4, 5, 7, 8, 10, 11, 12, 13, 14, 16, 18, 19, 20,
   21, 22, 23, 24, 25, 26, 27, 28, 29, 30].contains n

/-- `usize::MAX`, the sentinel `asset_desc_index` set by
`AssetDescription::from_bytes` before the caller assigns the real index. -/
def usizeMax : Nat := 18446744073709551615

/-- AssetDescription (src/asset/mod.rs): the 160-byte fixed table row.
`assetType` holds the u32 discriminant of the parsed `AssetType`. -/
structure AssetDescription where
  nameBytes : List Nat
  assetType : Nat
  unk1 : Nat
  unk2 : Nat
  chunkCount : Nat
  descriptorPtr : Nat
  descriptorSize : Nat
  dataviewListPtr : Nat
  resourceSize : Nat
  assetDescIndex : Nat
deriving DecidableEq, Repr, Inhabited

/-- `AssetDescription::name` (src/asset/mod.rs lines 331-337): decode the
128-byte field as UTF-8 (invalid encoding yields the empty string) and keep
the part before the first NUL.  Names are kept as byte lists. -/
def AssetDescription.name (a : AssetDescription) : List Nat :=
  if validUtf8 a.nameBytes then a.nameBytes.takeWhile (· ≠ 0) else []

/-- `AssetDescription::from_bytes` (src/asset/mod.rs lines 283-306): 128 name
bytes, then 8 little-endian u32 fields; an unknown asset-type code is the one
error (`AssetType::try_from` failing), and a cursor EOF on an input shorter
than 160 bytes is an error as well; both surface as `io::Error` to the
caller. -/
def AssetDescription.fromBytes (b : List Nat) : Except Unit AssetDescription :=
  if 160 ≤ b.length then
    let t := leU32 (b.drop 128)
    if validAssetType t then
      .ok
        { nameBytes := b.take 128
          assetType := t
          unk1 := leU32 (b.drop 132)
          unk2 := leU32 (b.drop 136)
          chunkCount := leU32 (b.drop 140)
          descriptorPtr := leU32 (b.drop 144)
          descriptorSize := leU32 (b.drop 148)
          dataviewListPtr := leU32 (b.drop 152)
          resourceSize := leU32 (b.drop 156)
          assetDescIndex := usizeMax }
    else .error ()
  else .error ()

/-- `AssetDescription::to_bytes` (src/asset/mod.rs lines 308-329): the name
bytes followed by the 8 u32 fields, little-endian (160 bytes when the name
field has its invariant length 128). -/
def AssetDescription.toBytes (a : AssetDescription) : List Nat :=
  a.nameBytes ++ u32le a.assetType ++ u32le a.unk1 ++ u32le a.unk2 ++
    u32le a.chunkCount ++ u32le a.descriptorPtr ++ u32le a.descriptorSize ++
    u32le a.dataviewListPtr ++ u32le a.resourceSize

/-- BNLHeader (src/lib.rs): the parsed 40-byte header. -/
structure BNLHeader where
  fileCount : Nat
  flags : Nat
  unknown2 : List Nat
  assetDescLoc : DataView
  bufferViewsLoc : DataView
  bufferLoc : DataView
  descriptorLoc : DataView
deriving DecidableEq, Repr, Inhabited

/-- Header parsing, the cursor reads at the start of `BNLFile::from_bytes`
(guarded there by the input holding at least 40 bytes, which makes every read
succeed): u16 file_count, u8 flags, 5 unknown bytes, then four (offset, size)
u32 pairs. -/
def parseHeader (b : List Nat) : BNLHeader :=
  { fileCount := leU16 b
    flags := b.getD 2 0
    unknown2 := (b.drop 3).take 5
    assetDescLoc := ⟨leU32 (b.drop 8), leU32 (b.drop 12)⟩
    bufferViewsLoc := ⟨leU32 (b.drop 16), leU32 (b.drop 20)⟩
    bufferLoc := ⟨leU32 (b.drop 24), leU32 (b.drop 28)⟩
    descriptorLoc := ⟨leU32 (b.drop 32), leU32 (b.drop 36)⟩ }

/-- `BNLHeader::to_bytes` (src/lib.rs lines 78-110): the 40-byte serialization
of the header fields in the same order. -/
def BNLHeader.toBytes (h : BNLHeader) : List Nat :=
  u16le h.fileCount ++ [h.flags % 256] ++ h.unknown2.map (· % 256) ++
    u32le h.assetDescLoc.offset ++ u32le h.assetDescLoc.size ++
    u32le h.bufferViewsLoc.offset ++ u32le h.bufferViewsLoc.size ++
    u32le h.bufferLoc.offset ++ u32le h.bufferLoc.size ++
    u32le h.descriptorLoc.offset ++ u32le h.descriptorLoc.size

/-- BNLError (src/lib.rs): decompression failure, or any other read error
(the `DataReadError(String)` variant, message dropped). -/
inductive BNLError where
  | decompressionFailure
  | dataReadError
deriving DecidableEq, Repr

/-- Modelled from the spec: the zlib deflate/inflate pair used by
`BNLFile::from_bytes`/`to_bytes` comes from the external `miniz_oxide` crate,
which is not part of this repository's sources; §4.4 treats it as an opaque
codec whose inflate can fail.  Theorems that need losslessness state
`decompress (compress y) = some y` as an explicit hypothesis. -/
structure ZCodec where
  compress : List Nat → List Nat
  decompress : List Nat → Option (List Nat)

/-- The identity instance of the codec, used to evaluate the container on
concrete inputs. -/
def identZ : ZCodec :=
  ⟨fun l => l, fun l => some l⟩

/-- BNLFile (src/lib.rs): the header, the four owned section buffers and the
parsed record table. -/
structure BNLFile where
  header : BNLHeader
  assetDescBytes : List Nat
  bufferViewsBytes : List Nat
  bufferBytes : List Nat
  descriptorBytes : List Nat
  assetDescriptions : List AssetDescription
deriving DecidableEq, Repr, Inhabited

/-- One iteration of the description-reading loop of `BNLFile::from_bytes`:
read 160 bytes at `off + i*160` of the combined buffer and parse them,
then overwrite the sentinel index with `i`. -/
def readDesc (bytes : List Nat) (off i : Nat) : Option AssetDescription :=
  (readExact bytes (off + i * 160) 160).bind fun rb =>
    match AssetDescription.fromBytes rb with
    | .error _ => none
    | .ok d => some { d with assetDescIndex := i }

/-- The description-reading loop: `i` the next index, `k` the number of rows
still to read.  Any failure is the `?`-propagated `DataReadError`. -/
def readDescsAux (bytes : List Nat) (off : Nat) : Nat → Nat → Option (List AssetDescription)
  | _, 0 => some []
  | i, k + 1 =>
    match readDesc bytes off i with
    | none => none
    | some d => (readDescsAux bytes off (i + 1) k).map (d :: ·)

/-- All `asset_desc_loc.size / 160` rows of the record table. -/
def readDescs (bytes : List Nat) (off n : Nat) : Option (List AssetDescription) :=
  readDescsAux bytes off 0 n

/-- `BNLFile::from_bytes` (src/lib.rs lines 144-210).  The very first
statement slices `bnl_bytes[..40]`, which panics on an input shorter than 40
bytes (`none`); with at least 40 bytes every header read succeeds, the
remainder is inflated (failure: `DecompressionFailure`), the combined buffer
is the first 40 input bytes followed by the inflated bytes, and the record
table plus the four sections are read out of it (any short read or bad
asset-type code: `DataReadError`). -/
def BNLFile.fromBytes (z : ZCodec) (input : List Nat) : Option (Except BNLError BNLFile) :=
  if input.length < 40 then none
  else
    let header := parseHeader input
    match z.decompress (input.drop 40) with
    | none => some (.error .decompressionFailure)
    | some inflated =>
      let bytes := input.take 40 ++ inflated
      let n := header.assetDescLoc.size / 160
      match readDescs bytes header.assetDescLoc.offset n with
      | none => some (.error .dataReadError)
      | some descs =>
        match readExact bytes header.assetDescLoc.offset header.assetDescLoc.size,
              readExact bytes header.bufferViewsLoc.offset header.bufferViewsLoc.size,
              readExact bytes header.bufferLoc.offset header.bufferLoc.size,
              readExact bytes header.descriptorLoc.offset header.descriptorLoc.size with
        | some s1, some s2, some s3, some s4 =>
          some (.ok ⟨header, s1, s2, s3, s4, descs⟩)
        | _, _, _, _ => some (.error .dataReadError)

/-- `BNLFile::to_bytes` (src/lib.rs lines 212-228): concatenate the four
sections, compress, and prepend the re-serialized 40-byte header. -/
def BNLFile.toBytes (z : ZCodec) (b : BNLFile) : List Nat :=
  b.header.toBytes ++
    z.compress (b.assetDescBytes ++ b.bufferViewsBytes ++ b.bufferBytes ++ b.descriptorBytes)

/-- AssetParseError (src/asset/mod.rs); the `InvalidDataViews` message is kept
so distinct failure causes stay distinguishable. -/
inductive AssetParseError where
  | parserNotImplemented
  | errorParsingDescriptor
  | inputTooSmall
  | invalidDataViews (msg : String)
deriving DecidableEq, Repr

/-- AssetError (src/asset/mod.rs). -/
inductive AssetError where
  | parseError (e : AssetParseError)
  | typeMismatch
  | notFound
deriving DecidableEq, Repr

/-- The error `update_asset_from_descriptor` returns when the new descriptor
would grow (src/lib.rs lines 535-538). -/
def growthError : AssetError :=
  .parseError (.invalidDataViews
    "The descriptor can not grow in size. (WIP to allow descriptor growing.)")

/-- The error every caller maps a DataViewList failure to. -/
def dvlLookupError : AssetError :=
  .parseError (.invalidDataViews "Unable to get data view list from BNL data.")

/-- The error `get_raw_asset(s)` maps a slice-resolution failure to. -/
def sliceResolveError : AssetError :=
  .parseError (.invalidDataViews "Unable to get data from data slices.")

/-- RawAsset (src/asset/mod.rs). -/
structure RawAsset where
  name : List Nat
  assetType : Nat
  descriptorBytes : List Nat
  dataSlices : List (List Nat)
deriving DecidableEq, Repr, Inhabited

/-- `BNLFile::get_dataview_list` (src/lib.rs lines 630-635): slices
`buffer_views_bytes[offset..]` (panic when `offset` exceeds the section
length) and parses a DataViewList from it; any parse error is boxed. -/
def BNLFile.getDataviewList (bnl : BNLFile) (offset : Nat) :
    Option (Except Unit DataViewList) :=
  if offset ≤ bnl.bufferViewsBytes.length then
    match DataViewList.fromBytes (bnl.bufferViewsBytes.drop offset) with
    | none => none
    | some (.error _) => some (.error ())
    | some (.ok dvl) => some (.ok dvl)
  else none

/-- The per-record closure of `BNLFile::get_raw_assets` (src/lib.rs lines
434-461): slice the descriptor bytes by `(descriptor_ptr, descriptor_size)`
(an unchecked range index: panic when out of range), resolve the ViewList,
resolve its slices. -/
def rawAssetOf (bnl : BNLFile) (a : AssetDescription) : Option (Except AssetError RawAsset) :=
  if a.descriptorPtr + a.descriptorSize ≤ bnl.descriptorBytes.length then
    let descBytes := (bnl.descriptorBytes.drop a.descriptorPtr).take a.descriptorSize
    match bnl.getDataviewList a.dataviewListPtr with
    | none => none
    | some (.error _) => some (.error dvlLookupError)
    | some (.ok dvl) =>
      match dvl.slices bnl.bufferBytes with
      | none => none
      | some (.error _) => some (.error sliceResolveError)
      | some (.ok ss) => some (.ok ⟨a.name, a.assetType, descBytes, ss⟩)
  else none

/-- The enumeration loop of `get_raw_assets`: an `Err` for one record prints a
diagnostic and skips it; a panic aborts the whole call. -/
def getRawAssetsLoop (bnl : BNLFile) : List AssetDescription → Option (List RawAsset)
  | [] => some []
  | a :: rest =>
    match rawAssetOf bnl a with
    | none => none
    | some (.error _) => getRawAssetsLoop bnl rest
    | some (.ok r) => (getRawAssetsLoop bnl rest).map (r :: ·)

/-- `BNLFile::get_raw_assets` (src/lib.rs lines 431-479). -/
def BNLFile.getRawAssets (bnl : BNLFile) : Option (List RawAsset) :=
  getRawAssetsLoop bnl bnl.assetDescriptions

/-- The codec capability pair `AssetDescriptor` (src/asset/mod.rs lines
228-239) for a descriptor type `D`: parse, serialize, serialized size, and
the asset-type tag (u32 discriminant). -/
structure ADCodec (D : Type) where
  fromBytes : List Nat → Except Unit D
  toBytes : D → Except Unit (List Nat)
  size : D → Nat
  assetType : Nat

/-- `BNLFile::get_asset_description` (src/lib.rs lines 570-574): first record
with a matching name. -/
def BNLFile.getAssetDescription (bnl : BNLFile) (q : List Nat) : Option AssetDescription :=
  bnl.assetDescriptions.find? (fun a => a.name == q)

/-- The lookup loop of `BNLFile::get_descriptor` (src/lib.rs lines 588-605):
name match, then type check, then parse the descriptor from
`descriptor_bytes[descriptor_ptr..]` (unchecked slice: panic when the pointer
exceeds the section length). -/
def getDescriptorLoop {D : Type} (c : ADCodec D) (bnl : BNLFile) (q : List Nat) :
    List AssetDescription → Option (Except AssetError D)
  | [] => some (.error .notFound)
  | a :: rest =>
    if a.name == q then
      if a.assetType ≠ c.assetType then some (.error .typeMismatch)
      else if a.descriptorPtr ≤ bnl.descriptorBytes.length then
        match c.fromBytes (bnl.descriptorBytes.drop a.descriptorPtr) with
        | .error _ => some (.error (.parseError .errorParsingDescriptor))
        | .ok d => some (.ok d)
      else none
    else getDescriptorLoop c bnl q rest

/-- `BNLFile::get_descriptor` (src/lib.rs lines 588-605).  The parse failure
is the propagated `AssetParseError` of the codec; its exact variant depends on
the codec, which only returns an opaque error here, so it is embedded as
`errorParsingDescriptor`. -/
def BNLFile.getDescriptor {D : Type} (c : ADCodec D) (bnl : BNLFile) (q : List Nat) :
    Option (Except AssetError D) :=
  getDescriptorLoop c bnl q bnl.assetDescriptions

/-- `BNLFile::update_asset_description` (src/lib.rs lines 576-586): serialize
the record into section 1 at `asset_desc_index * 160`.  The range index and
`copy_from_slice` panic when the row lies outside the section or the
serialization is not exactly 160 bytes (the latter is the `[u8; 160]` array
type of the source). -/
def BNLFile.updateAssetDescription (bnl : BNLFile) (a : AssetDescription) :
    Option (Except AssetError BNLFile) :=
  let start := a.assetDescIndex * 160
  let tb := a.toBytes
  if start + 160 ≤ bnl.assetDescBytes.length ∧ tb.length = 160 then
    some (.ok { bnl with assetDescBytes := writeRange bnl.assetDescBytes start tb })
  else none

/-- `BNLFile::update_asset_from_descriptor` (src/lib.rs lines 506-568),
stateful steps in source order: find the record (clone), type-check, re-parse
the previous descriptor, compare serialized sizes against the parsed previous
descriptor, overwrite the descriptor section in place, optionally
scatter-write the resource bytes, then re-serialize the (cloned, updated)
record into section 1.  The mutated container accompanies every non-panic
outcome. -/
def BNLFile.updateAssetFromDescriptor {D : Type} (c : ADCodec D) (bnl : BNLFile)
    (q : List Nat) (d : D) (dat : Option (List Nat)) :
    Option (Except AssetError Unit × BNLFile) :=
  match bnl.getAssetDescription q with
  | none => some (.error .notFound, bnl)
  | some a =>
    if a.assetType ≠ c.assetType then some (.error .typeMismatch, bnl)
    else
      match bnl.getDescriptor c q with
      | none => none
      | some (.error e) => some (.error e, bnl)
      | some (.ok prev) =>
        let newSize := c.size d
        let prevSize := c.size prev
        if newSize > prevSize then some (.error growthError, bnl)
        else
          let a1 := { a with descriptorSize := newSize }
          if a.descriptorPtr + newSize ≤ bnl.descriptorBytes.length then
            match c.toBytes d with
            | .error _ => some (.error (.parseError .errorParsingDescriptor), bnl)
            | .ok tb =>
            if tb.length = newSize then
              let bnl1 := { bnl with
                descriptorBytes := writeRange bnl.descriptorBytes a.descriptorPtr tb }
              let afterData : Option (Except AssetError Unit × BNLFile) :=
                match dat with
                | none => some (.ok (), bnl1)
                | some dataBytes =>
                  match bnl1.getDataviewList a.dataviewListPtr with
                  | none => none
                  | some (.error _) => some (.error dvlLookupError, bnl1)
                  | some (.ok dvl) =>
                    match dvl.writeBytes dataBytes bnl1.bufferBytes with
                    | none => none
                    | some (.error _, buf1) =>
                      some (.error (.parseError .errorParsingDescriptor),
                        { bnl1 with bufferBytes := buf1 })
                    | some (.ok (), buf1) =>
                      some (.ok (), { bnl1 with bufferBytes := buf1 })
              match afterData with
              | none => none
              | some (.error e, bnl2) => some (.error e, bnl2)
              | some (.ok (), bnl2) =>
                match bnl2.updateAssetDescription a1 with
                | none => none
                | some (.error e) => some (.error e, bnl2)
                | some (.ok bnl3) => some (.ok (), bnl3)
            else none
          else none

/-- Extract the container a successful parse yields (total helper for closed
statements; every use is paired with an equation showing the parse did
succeed). -/
def exContainer (bs : List Nat) : BNLFile :=
  match BNLFile.fromBytes identZ bs with
  | some (.ok b) => b
  | _ => default

/-- A well-formed 220-byte container file: file_count 1; sections laid out
contiguously at offsets 40/200/216/220 with sizes 160/16/4/0; one record
(empty name, type 1 = ResTexture, descriptor_ptr 0, descriptor_size 1,
dataview_list_ptr 0, resource_size 0); one ViewList (0,4); a 4-byte raw
buffer; an empty descriptor section.  The record's descriptor range (0,1)
reaches past the empty descriptor section. -/
def c2Bytes : List Nat :=
  u16le 1 ++ [0] ++ List.replicate 5 0 ++
  u32le 40 ++ u32le 160 ++ u32le 200 ++ u32le 16 ++ u32le 216 ++ u32le 4 ++ u32le 220 ++ u32le 0 ++
  List.replicate 128 0 ++ u32le 1 ++ u32le 0 ++ u32le 0 ++ u32le 0 ++
    u32le 0 ++ u32le 1 ++ u32le 0 ++ u32le 0 ++
  [16, 0, 0, 0, 1, 0, 0, 0, 0, 0, 0, 0, 4, 0, 0, 0] ++
  [9, 9, 9, 9]

/-- Like `c2Bytes`, but with a 4-byte descriptor section `[7,7,7,7]` and the
record's descriptor_size field set to 2. -/
def c6Bytes : List Nat :=
  u16le 1 ++ [0] ++ List.replicate 5 0 ++
  u32le 40 ++ u32le 160 ++ u32le 200 ++ u32le 16 ++ u32le 216 ++ u32le 4 ++ u32le 220 ++ u32le 4 ++
  List.replicate 128 0 ++ u32le 1 ++ u32le 0 ++ u32le 0 ++ u32le 0 ++
    u32le 0 ++ u32le 2 ++ u32le 0 ++ u32le 0 ++
  [16, 0, 0, 0, 1, 0, 0, 0, 0, 0, 0, 0, 4, 0, 0, 0] ++
  [9, 9, 9, 9] ++
  [7, 7, 7, 7]

/-- A concrete `AssetDescriptor` codec instance for type ResTexture (= 1):
a descriptor is just its size; parsing takes the whole remaining slice, so the
parsed previous descriptor reports the remaining section length as its size,
which can disagree with the record's descriptor_size field. -/
def exCodec : ADCodec Nat :=
  { fromBytes := fun bs => .ok bs.length
    toBytes := fun n => .ok (List.replicate n 9)
    size := fun n => n
    assetType := 1 }

/-- A well-formed 48-byte container file whose header places the view-list
section at offset 44 and the raw-buffer section at offset 40: the sections are
not laid out in the canonical serialization order. -/
def xBad : List Nat :=
  u16le 0 ++ [0] ++ List.replicate 5 0 ++
  u32le 40 ++ u32le 0 ++ u32le 44 ++ u32le 4 ++ u32le 40 ++ u32le 4 ++ u32le 48 ++ u32le 0 ++
  [1, 2, 3, 4, 5, 6, 7, 8]

set_option maxRecDepth 100000

/-- C1 counterexample: `xBad` parses successfully, but re-parsing its
serialization yields a container whose view-list and raw-buffer sections are
swapped relative to the original (`to_bytes` rebuilds the body in canonical
section order while the header keeps the original offsets), so the claimed
structural equality of the four sections fails. -/
theorem C1_counterexample :
    BNLFile.fromBytes identZ xBad = some (.ok (exContainer xBad)) ∧
    BNLFile.fromBytes identZ (BNLFile.toBytes identZ (exContainer xBad)) =
      some (.ok (exContainer (BNLFile.toBytes identZ (exContainer xBad)))) ∧
    (exContainer xBad).bufferViewsBytes = [5, 6, 7, 8] ∧
    (exContainer (BNLFile.toBytes identZ (exContainer xBad))).bufferViewsBytes = [1, 2, 3, 4] := by
  refine ⟨by decide, by decide, by decide, by decide⟩

/-- C2: a container built successfully by `from_bytes` whose single record has
descriptor_ptr 0 and descriptor_size 1 against an empty descriptor section
makes `get_raw_assets` panic on the unchecked slice
`descriptor_bytes[ptr..ptr+size]` (`none`), instead of skipping the record
with a diagnostic. -/
theorem C2_get_raw_assets_panics :
    BNLFile.fromBytes identZ c2Bytes = some (.ok (exContainer c2Bytes)) ∧
    (exContainer c2Bytes).getRawAssets = none := by
  refine ⟨by decide, by decide⟩

/-- C3: the 8-byte input declaring declared_size 16 and view_count 1 passes
the size checks (the truncation check compares against `view_count*8`, not
`view_count*8 + 8`), and the record loop then panics on
`chunks.next().unwrap()` (`none`) instead of failing with Truncated; the same
happens at 15 bytes, one byte short of a full record. -/
theorem C3_viewlist_parse_truncated_panics :
    DataViewList.fromBytes [16, 0, 0, 0, 1, 0, 0, 0] = none ∧
    DataViewList.fromBytes [16, 0, 0, 0, 1, 0, 0, 0, 9, 9, 9, 9, 9, 9, 9] = none := by
  refine ⟨by decide, by decide⟩

/-- C4: resolving a ViewList with one view (offset 0, size 5) against a 4-byte
backing buffer: `DataViewList::slices` panics on the unchecked index
`&data[start..end]` (`none`) instead of returning an OutOfBounds error, while
`VirtualResource::from_dvl` performs the claimed checked resolution and
returns the error value. -/
theorem C4_slices_panics :
    DataViewList.slices ⟨16, 1, [⟨0, 5⟩]⟩ [1, 2, 3, 4] = none ∧
    VirtualResource.fromDvl ⟨16, 1, [⟨0, 5⟩]⟩ [1, 2, 3, 4] = .error .sizeOutOfBounds := by
  refine ⟨by decide, by decide⟩

/-- C5: `write_bytes` with an input whose length differs from the logical
length fails with the size-mismatch error before touching the backing buffer,
which is returned unchanged. -/
theorem C5_scatter_write_size_mismatch (dvl : DataViewList) (bytes resource : List Nat)
    (h : bytes.length ≠ dvl.len) :
    dvl.writeBytes bytes resource = some (.error .sizeOutOfBounds, resource) := by
  unfold DataViewList.writeBytes
  rw [if_pos (fun hc => h hc.symm)]

/-- C5 witness: a concrete mismatched scatter-write fails and leaves the
buffer unchanged. -/
theorem C5_scatter_write_size_mismatch_witness :
    ([3, 3, 3] : List Nat).length ≠ DataViewList.len ⟨24, 2, [⟨0, 2⟩, ⟨4, 2⟩]⟩ ∧
    DataViewList.writeBytes ⟨24, 2, [⟨0, 2⟩, ⟨4, 2⟩]⟩ [3, 3, 3] [5, 5, 5, 5, 5, 5] =
      some (.error .sizeOutOfBounds, [5, 5, 5, 5, 5, 5]) :=
  ⟨by decide, C5_scatter_write_size_mismatch ⟨24, 2, [⟨0, 2⟩, ⟨4, 2⟩]⟩ [3, 3, 3]
    [5, 5, 5, 5, 5, 5] (by decide)⟩

/-- C9: `from_bytes` slices `bnl_bytes[..40]` before any length check, so the
empty input (and any input shorter than 40 bytes) panics (`none`) instead of
returning an error value. -/
theorem C9_from_bytes_short_input_panics :
    BNLFile.fromBytes identZ [] = none ∧
    BNLFile.fromBytes identZ [1, 2, 3] = none := by
  refine ⟨by decide, by decide⟩

/-- The 1000-byte test buffer of the source's `make_data::<1000>()`:
`arr[i] = i as u8`. -/
def testData : List Nat := (List.range 1000).map (· % 256)

/-- The four backing slices of the source's `read_across_slices` test. -/
def testSlices : List (List Nat) :=
  [(testData.drop 0).take 100, (testData.drop 200).take 100,
   (testData.drop 400).take 100, (testData.drop 600).take 100]

/-- C7: reading 200 bytes at logical offset 180 from the four 100-byte slices
at source offsets [0,100), [200,300), [400,500), [600,700) yields exactly
source[280..300] ++ source[400..500] ++ source[600..680]. -/
theorem C7_scatter_read_across_slices :
    (VirtualResource.fromSlices testSlices).getBytes 180 200 =
      .ok ((testData.drop 280).take 20 ++ (testData.drop 400).take 100 ++
        (testData.drop 600).take 80) := by
  decide

/-- C6 counterexample: in `c6Bytes` the single record's descriptor_size field
is 2, and the new descriptor serializes to 3 bytes, so by the claim the update
must fail with the growth error and leave the descriptor section unchanged;
instead the source compares against the re-parsed previous descriptor's own
size (here 4, the remaining section length), so the call succeeds and
overwrites the descriptor section. -/
theorem C6_counterexample :
    BNLFile.fromBytes identZ c6Bytes = some (.ok (exContainer c6Bytes)) ∧
    ((exContainer c6Bytes).getAssetDescription []).map AssetDescription.descriptorSize =
      some 2 ∧
    exCodec.size 3 > 2 ∧
    ((exContainer c6Bytes).updateAssetFromDescriptor exCodec [] 3 none).map Prod.fst =
      some (.ok ()) ∧
    ((exContainer c6Bytes).updateAssetFromDescriptor exCodec [] 3 none).map
      (fun p => p.2.descriptorBytes) = some [9, 9, 9, 7] ∧
    (exContainer c6Bytes).descriptorBytes = [7, 7, 7, 7] := by
  refine ⟨by decide, by decide, by decide, by decide, by decide, by decide⟩

/-- The container state after the successful shrinking update of the C8
scenario. -/
def c8After : BNLFile :=
  match (exContainer c6Bytes).updateAssetFromDescriptor exCodec [] 3 none with
  | some (.ok (), b) => b
  | _ => default

/-- C8: after a successful `update_asset_from_descriptor` that shrinks the
descriptor from size 2 to size 3-as-written (the record field said 2, the
bytes written say 3), the asset-description section bytes carry the new
descriptor_size 3 at field offset 148 of row 0, while the in-memory
AssetRecord table entry still carries the old value 2: the parsed table and
the section bytes disagree on the success path, because the source updates a
clone of the record and never writes it back into `asset_descriptions`. -/
theorem C8_table_section_incoherent :
    (exContainer c6Bytes).updateAssetFromDescriptor exCodec [] 3 none =
      some (.ok (), c8After) ∧
    c8After.assetDescriptions.map AssetDescription.descriptorSize = [2] ∧
    leU32 (c8After.assetDescBytes.drop 148) = 3 := by
  refine ⟨by decide, by decide, by decide⟩

theorem writeRange_length (buf src : List Nat) (s : Nat) (h : s + src.length ≤ buf.length) :
    (writeRange buf s src).length = buf.length := by
  simp [writeRange]
  omega

theorem writeRange_getElem_outside (buf src : List Nat) (s i : Nat)
    (hs : s ≤ buf.length) (h : i < s ∨ s + src.length ≤ i) :
    (writeRange buf s src)[i]? = buf[i]? := by
  have hts : (buf.take s).length = s := by simp [List.length_take]; omega
  rcases h with h | h
  · rw [writeRange, List.append_assoc, List.getElem?_append_left (by omega),
      List.getElem?_take_of_lt h]
  · rw [writeRange, List.append_assoc, List.getElem?_append_right (by omega), hts,
      List.getElem?_append_right (by omega), List.getElem?_drop]
    congr 1
    omega

theorem writeBytesLoop_frame (bytes : List Nat) (writeSize : Nat) (views : List DataView) :
    ∀ (buf buf2 : List Nat) (total : Nat),
      writeBytesLoop bytes writeSize views buf total = some (.ok (), buf2) →
      buf2.length = buf.length ∧
      ∀ i, (∀ v ∈ views, i < v.offset ∨ v.offset + v.size ≤ i) → buf2[i]? = buf[i]? := by
  induction views with
  | nil =>
    intro buf buf2 total h
    unfold writeBytesLoop at h
    split at h
    · simp at h
    · simp only [Option.some.injEq, Prod.mk.injEq] at h
      obtain ⟨-, h2⟩ := h
      subst h2
      exact ⟨rfl, fun i _ => rfl⟩
  | cons v rest ih =>
    intro buf buf2 total h
    unfold writeBytesLoop at h
    by_cases hb : v.offset + v.size ≤ buf.length
    · rw [if_pos hb] at h
      dsimp only at h
      have hsrcle : ((bytes.drop total).take (min (writeSize - total) v.size)).length ≤ v.size := by
        simp [List.length_take]
      have hwr : v.offset + ((bytes.drop total).take (min (writeSize - total) v.size)).length ≤
          buf.length := by omega
      split at h
      · simp at h
      · split at h
        · simp only [Option.some.injEq, Prod.mk.injEq] at h
          obtain ⟨-, h2⟩ := h
          subst h2
          refine ⟨writeRange_length _ _ _ hwr, fun i hi => ?_⟩
          have hv := hi v (by simp)
          exact writeRange_getElem_outside _ _ _ _ (by omega) (by omega)
        · obtain ⟨hl, hf⟩ := ih _ buf2 _ h
          have hl1 := writeRange_length buf ((bytes.drop total).take
            (min (writeSize - total) v.size)) v.offset hwr
          refine ⟨by rw [hl, hl1], fun i hi => ?_⟩
          have hv := hi v (by simp)
          have hrest : ∀ w ∈ rest, i < w.offset ∨ w.offset + w.size ≤ i := by
            intro w hw
            exact hi w (by simp [hw])
          rw [hf i hrest]
          exact writeRange_getElem_outside _ _ _ _ (by omega) (by omega)
    · rw [if_neg hb] at h
      simp at h

/-- C10: whenever `write_bytes` succeeds, the backing buffer keeps its length
and every byte outside the union of the view ranges keeps its value — only
the addressed ranges are overwritten. -/
theorem C10_scatter_write_frame (dvl : DataViewList) (bytes buf buf2 : List Nat)
    (h : dvl.writeBytes bytes buf = some (.ok (), buf2)) :
    buf2.length = buf.length ∧
    ∀ i, (∀ v ∈ dvl.views, i < v.offset ∨ v.offset + v.size ≤ i) → buf2[i]? = buf[i]? := by
  unfold DataViewList.writeBytes at h
  split at h
  · simp at h
  · exact writeBytesLoop_frame bytes bytes.length dvl.views buf buf2 0 h

/-- C10 witness: a concrete successful scatter-write across views (0,2) and
(3,2) leaves byte 2 unchanged. -/
theorem C10_scatter_write_frame_witness :
    DataViewList.writeBytes ⟨24, 2, [⟨0, 2⟩, ⟨3, 2⟩]⟩ [1, 2, 3, 4] [5, 5, 5, 5, 5, 5, 5] =
      some (.ok (), [1, 2, 5, 3, 4, 5, 5]) ∧
    ([1, 2, 5, 3, 4, 5, 5] : List Nat)[2]? = ([5, 5, 5, 5, 5, 5, 5] : List Nat)[2]? :=
  ⟨by decide,
    (C10_scatter_write_frame ⟨24, 2, [⟨0, 2⟩, ⟨3, 2⟩]⟩ [1, 2, 3, 4] [5, 5, 5, 5, 5, 5, 5]
      [1, 2, 5, 3, 4, 5, 5] (by decide)).2 2 (by decide)⟩

theorem assetDescriptionToBytes_length (a : AssetDescription) :
    a.toBytes.length = a.nameBytes.length + 32 := by
  simp [AssetDescription.toBytes, u32le]

/-- C6 (amended): for a found, type-matching record, the growth comparison is
against the serialized size of the previously parsed descriptor
(`prev_descriptor.size()`), not the record's descriptor_size field: when the
new serialized size exceeds it the call fails with the growth error and the
container (its descriptor section included) is returned untouched; when it
fits or shrinks (and no resource bytes accompany the update), the descriptor
section is overwritten in place at descriptor_ptr, and the 160-byte record,
its descriptor_size field set to the new size, is re-serialized into the
asset-description section at row_index * 160. -/
theorem C6_update_descriptor_growth {D : Type} (c : ADCodec D) (bnl : BNLFile)
    (q : List Nat) (d : D) (dat : Option (List Nat)) (a : AssetDescription) (prev : D)
    (hfind : bnl.getAssetDescription q = some a)
    (htype : a.assetType = c.assetType)
    (hprev : bnl.getDescriptor c q = some (.ok prev)) :
    (c.size prev < c.size d →
      bnl.updateAssetFromDescriptor c q d dat = some (.error growthError, bnl)) ∧
    (∀ tb, c.size d ≤ c.size prev → c.toBytes d = .ok tb → tb.length = c.size d →
      a.descriptorPtr + c.size d ≤ bnl.descriptorBytes.length →
      a.assetDescIndex * 160 + 160 ≤ bnl.assetDescBytes.length →
      a.nameBytes.length = 128 →
      bnl.updateAssetFromDescriptor c q d none =
        some (.ok (), { bnl with
          descriptorBytes := writeRange bnl.descriptorBytes a.descriptorPtr tb
          assetDescBytes := writeRange bnl.assetDescBytes (a.assetDescIndex * 160)
            (AssetDescription.toBytes { a with descriptorSize := c.size d }) })) := by
  constructor
  · intro hgrow
    unfold BNLFile.updateAssetFromDescriptor
    rw [hfind]
    dsimp only
    rw [if_neg (by simp [htype]), hprev]
    dsimp only
    rw [if_pos hgrow]
  · intro tb hfit htb htblen hdesc hrow hname
    unfold BNLFile.updateAssetFromDescriptor
    rw [hfind]
    dsimp only
    rw [if_neg (by simp [htype]), hprev]
    dsimp only
    rw [if_neg (by omega), if_pos (by omega), htb]
    dsimp only
    rw [if_pos htblen]
    unfold BNLFile.updateAssetDescription
    dsimp only
    rw [if_pos ⟨by simpa using hrow, by simp [assetDescriptionToBytes_length, hname]⟩]

/-- The single record of the `c6Bytes` container. -/
def c6Record : AssetDescription :=
  match (exContainer c6Bytes).getAssetDescription [] with
  | some a => a
  | none => default

/-- C6 witness: the concrete shrinking update on the `c6Bytes` container
succeeds and rewrites both the descriptor section and the record row. -/
theorem C6_update_descriptor_growth_witness :
    (exContainer c6Bytes).updateAssetFromDescriptor exCodec [] 3 none =
      some (.ok (), { exContainer c6Bytes with
        descriptorBytes := writeRange (exContainer c6Bytes).descriptorBytes 0 [9, 9, 9]
        assetDescBytes := writeRange (exContainer c6Bytes).assetDescBytes 0
          (AssetDescription.toBytes { c6Record with descriptorSize := 3 }) }) := by
  have h := (C6_update_descriptor_growth exCodec (exContainer c6Bytes) [] 3 none c6Record 4
    (by decide) (by decide) (by decide)).2 [9, 9, 9] (by decide) (by decide) (by decide)
    (by decide) (by decide) (by decide)
  have hp : c6Record.descriptorPtr = 0 := by decide
  have hi : c6Record.assetDescIndex = 0 := by decide
  rw [hp, hi] at h
  simpa using h

theorem getD_lt_256 {l : List Nat} (hb : ∀ b ∈ l, b < 256) (i : Nat) : l.getD i 0 < 256 := by
  rcases h : l[i]? with - | b
  · simp [List.getD, h]
  · have : b ∈ l := List.getElem?_mem h
    simp [List.getD, h]
    exact hb b this

theorem leU16_lt {l : List Nat} (hb : ∀ b ∈ l, b < 256) : leU16 l < 65536 := by
  have h0 := getD_lt_256 hb 0
  have h1 := getD_lt_256 hb 1
  unfold leU16
  omega

theorem leU32_lt {l : List Nat} (hb : ∀ b ∈ l, b < 256) : leU32 l < 4294967296 := by
  have h0 := getD_lt_256 hb 0
  have h1 := getD_lt_256 hb 1
  have h2 := getD_lt_256 hb 2
  have h3 := getD_lt_256 hb 3
  unfold leU32
  omega

theorem leU16_u16le (v : Nat) (h : v < 65536) (t : List Nat) : leU16 (u16le v ++ t) = v := by
  simp [leU16, u16le]
  omega

theorem leU32_u32le (v : Nat) (h : v < 4294967296) (t : List Nat) : leU32 (u32le v ++ t) = v := by
  simp [leU32, u32le]
  omega

/-- Bounds every header parsed from byte values satisfies; exactly what the
serialization round trip needs. -/
def HeaderBounded (h : BNLHeader) : Prop :=
  h.fileCount < 65536 ∧ h.flags < 256 ∧
  h.unknown2.length = 5 ∧ (∀ b ∈ h.unknown2, b < 256) ∧
  h.assetDescLoc.offset < 4294967296 ∧ h.assetDescLoc.size < 4294967296 ∧
  h.bufferViewsLoc.offset < 4294967296 ∧ h.bufferViewsLoc.size < 4294967296 ∧
  h.bufferLoc.offset < 4294967296 ∧ h.bufferLoc.size < 4294967296 ∧
  h.descriptorLoc.offset < 4294967296 ∧ h.descriptorLoc.size < 4294967296

theorem mem_drop_sub {l : List Nat} {b : Nat} {k : Nat} (h : b ∈ l.drop k)
    (hb : ∀ x ∈ l, x < 256) : b < 256 :=
  hb b (List.mem_of_mem_drop h)

theorem parseHeader_bounded {x : List Nat} (hb : ∀ b ∈ x, b < 256) (hl : 40 ≤ x.length) :
    HeaderBounded (parseHeader x) := by
  have hdrop : ∀ k : Nat, ∀ b ∈ x.drop k, b < 256 := by
    intro k b h
    exact hb b (List.mem_of_mem_drop h)
  refine ⟨leU16_lt hb, getD_lt_256 hb 2, ?_, ?_,
    leU32_lt (hdrop 8), leU32_lt (hdrop 12), leU32_lt (hdrop 16), leU32_lt (hdrop 20),
    leU32_lt (hdrop 24), leU32_lt (hdrop 28), leU32_lt (hdrop 32), leU32_lt (hdrop 36)⟩
  · simp [parseHeader, List.length_take, List.length_drop]
    omega
  · intro b h
    have h1 : b ∈ x.drop 3 := List.mem_of_mem_take h
    exact hb b (List.mem_of_mem_drop h1)

theorem headerToBytes_length (h : BNLHeader) (h5 : h.unknown2.length = 5) :
    h.toBytes.length = 40 := by
  simp [BNLHeader.toBytes, u16le, u32le, h5]

theorem parseHeader_toBytes_append (h : BNLHeader) (hb : HeaderBounded h) (t : List Nat) :
    parseHeader (h.toBytes ++ t) = h := by
  obtain ⟨h1, h2, h3, h4, h5, h6, h7, h8, h9, h10, h11, h12⟩ := hb
  obtain ⟨fc, fl, u, ⟨o1, z1⟩, ⟨o2, z2⟩, ⟨o3, z3⟩, ⟨o4, z4⟩⟩ := h
  simp only at h1 h2 h3 h4 h5 h6 h7 h8 h9 h10 h11 h12
  rcases u with - | ⟨u0, u⟩; · simp at h3
  rcases u with - | ⟨u1, u⟩; · simp at h3
  rcases u with - | ⟨u2, u⟩; · simp at h3
  rcases u with - | ⟨u3, u⟩; · simp at h3
  rcases u with - | ⟨u4, u⟩; · simp at h3
  rcases u with - | ⟨u5, u⟩; swap; · simp at h3
  have hu0 := h4 u0 (by simp)
  have hu1 := h4 u1 (by simp)
  have hu2 := h4 u2 (by simp)
  have hu3 := h4 u3 (by simp)
  have hu4 := h4 u4 (by simp)
  simp [BNLHeader.toBytes, parseHeader, u16le, u32le, leU16, leU32]
  omega

theorem readExact_inv {l s : List Nat} {pos len : Nat}
    (h : readExact l pos len = some s) :
    (pos + len ≤ l.length ∨ len = 0) ∧ s = (l.drop pos).take len ∧ s.length = len := by
  unfold readExact at h
  split at h
  · rename_i hle
    simp only [Option.some.injEq] at h
    subst h
    refine ⟨hle, rfl, ?_⟩
    simp [List.length_take, List.length_drop]
    omega
  · simp at h

theorem readExact_of_bounds {l : List Nat} {pos len : Nat} (h : pos + len ≤ l.length) :
    readExact l pos len = some ((l.drop pos).take len) := by
  unfold readExact
  rw [if_pos (Or.inl h)]

theorem slice_append_left (A B : List Nat) (k m : Nat) (h : k + m ≤ A.length) :
    ((A ++ B).drop k).take m = (A.drop k).take m := by
  rw [List.drop_append_eq_append_drop, List.take_append_eq_append_take]
  have h1 : (A.drop k).length = A.length - k := by simp [List.length_drop]
  have h2 : m - (A.drop k).length = 0 := by omega
  have h3 : k - A.length = 0 := by omega
  rw [h2, h3]
  simp

theorem slice_of_take (l : List Nat) (a b m : Nat) (h : b + m ≤ a) :
    ((l.take a).drop b).take m = (l.drop b).take m := by
  rw [List.drop_take, List.take_take]
  congr 1
  omega

theorem fromBytes_build (z : ZCodec) (input : List Nat) (hd : BNLHeader) (infl : List Nat)
    (descs : List AssetDescription) (s1 s2 s3 s4 : List Nat)
    (hlen : ¬ input.length < 40)
    (hp : parseHeader input = hd)
    (hdec : z.decompress (input.drop 40) = some infl)
    (hRD : readDescs (input.take 40 ++ infl) hd.assetDescLoc.offset
      (hd.assetDescLoc.size / 160) = some descs)
    (h1 : readExact (input.take 40 ++ infl) hd.assetDescLoc.offset hd.assetDescLoc.size = some s1)
    (h2 : readExact (input.take 40 ++ infl) hd.bufferViewsLoc.offset hd.bufferViewsLoc.size =
      some s2)
    (h3 : readExact (input.take 40 ++ infl) hd.bufferLoc.offset hd.bufferLoc.size = some s3)
    (h4 : readExact (input.take 40 ++ infl) hd.descriptorLoc.offset hd.descriptorLoc.size =
      some s4) :
    BNLFile.fromBytes z input = some (.ok ⟨hd, s1, s2, s3, s4, descs⟩) := by
  unfold BNLFile.fromBytes
  rw [if_neg hlen, hp, hdec]
  dsimp only
  rw [hRD]
  dsimp only
  rw [h1, h2, h3, h4]

theorem fromBytes_ok_inv {z : ZCodec} {x : List Nat} {c : BNLFile}
    (h : BNLFile.fromBytes z x = some (.ok c)) :
    40 ≤ x.length ∧
    ∃ infl,
      z.decompress (x.drop 40) = some infl ∧
      c.header = parseHeader x ∧
      readDescs (x.take 40 ++ infl) c.header.assetDescLoc.offset
        (c.header.assetDescLoc.size / 160) = some c.assetDescriptions ∧
      readExact (x.take 40 ++ infl) c.header.assetDescLoc.offset c.header.assetDescLoc.size =
        some c.assetDescBytes ∧
      readExact (x.take 40 ++ infl) c.header.bufferViewsLoc.offset c.header.bufferViewsLoc.size =
        some c.bufferViewsBytes ∧
      readExact (x.take 40 ++ infl) c.header.bufferLoc.offset c.header.bufferLoc.size =
        some c.bufferBytes ∧
      readExact (x.take 40 ++ infl) c.header.descriptorLoc.offset c.header.descriptorLoc.size =
        some c.descriptorBytes := by
  unfold BNLFile.fromBytes at h
  split at h
  · simp at h
  · rename_i hlen
    dsimp only at h
    split at h
    · simp at h
    · rename_i infl hdec
      split at h
      · simp at h
      · rename_i descs hRD
        split at h
        · rename_i s1 s2 s3 s4 h1 h2 h3 h4
          simp only [Option.some.injEq, Except.ok.injEq] at h
          subst h
          exact ⟨by omega, infl, hdec, rfl, hRD, h1, h2, h3, h4⟩
        · simp at h

theorem readDescsAux_congr (b1 b2 : List Nat) (o1 o2 : Nat) (k : Nat) :
    ∀ i, (∀ j, i ≤ j → j < i + k → readDesc b1 o1 j = readDesc b2 o2 j) →
      readDescsAux b1 o1 i k = readDescsAux b2 o2 i k := by
  induction k with
  | zero => intro i hj; rfl
  | succ k ih =>
    intro i hj
    unfold readDescsAux
    rw [hj i (le_refl i) (by omega)]
    cases hd : readDesc b2 o2 i with
    | none => rfl
    | some d => rw [ih (i + 1) (fun j hj1 hj2 => hj j (by omega) (by omega))]

/-- C1 (amended): for a container parsed from well-formed bytes whose header
lays the four sections out contiguously in the canonical serialization order
(asset-description at byte 40 of the combined buffer, each later section
starting where the previous one ends), re-parsing the serialization yields the
container itself: header fields, the four section buffers and the parsed
record table are all equal.  The layout restriction cannot simply be dropped:
`to_bytes` rebuilds the body in canonical order under the original header
offsets, and the separate counterexample for this claim exhibits a
successfully parsed non-contiguous layout whose round trip changes the
section contents.  Byte-exact equality of the file is not asserted, matching
the claim.  The compression pair is modelled from the spec and assumed
lossless. -/
theorem C1_roundtrip_contiguous (z : ZCodec) (x : List Nat) (c : BNLFile)
    (hbytes : ∀ b ∈ x, b < 256)
    (hok : BNLFile.fromBytes z x = some (.ok c))
    (hloss : ∀ y, z.decompress (z.compress y) = some y)
    (hoff1 : c.header.assetDescLoc.offset = 40)
    (hoff2 : c.header.bufferViewsLoc.offset = 40 + c.header.assetDescLoc.size)
    (hoff3 : c.header.bufferLoc.offset =
      c.header.bufferViewsLoc.offset + c.header.bufferViewsLoc.size)
    (hoff4 : c.header.descriptorLoc.offset =
      c.header.bufferLoc.offset + c.header.bufferLoc.size) :
    BNLFile.fromBytes z (BNLFile.toBytes z c) = some (.ok c) := by
  obtain ⟨hxlen, infl, hdec, hhd, hRD, hR1, hR2, hR3, hR4⟩ := fromBytes_ok_inv hok
  obtain ⟨hb1, he1, hl1⟩ := readExact_inv hR1
  obtain ⟨hb2, he2, hl2⟩ := readExact_inv hR2
  obtain ⟨hb3, he3, hl3⟩ := readExact_inv hR3
  obtain ⟨hb4, he4, hl4⟩ := readExact_inv hR4
  have hbound : HeaderBounded c.header := by
    rw [hhd]; exact parseHeader_bounded hbytes hxlen
  have hu5 : c.header.unknown2.length = 5 := hbound.2.2.1
  have hH40 : c.header.toBytes.length = 40 := headerToBytes_length _ hu5
  set B1 := x.take 40 ++ infl with hB1def
  set S := c.assetDescBytes ++ c.bufferViewsBytes ++ c.bufferBytes ++ c.descriptorBytes
    with hSdef
  have hSassoc : S = c.assetDescBytes ++ (c.bufferViewsBytes ++
      (c.bufferBytes ++ c.descriptorBytes)) := by
    simp [hSdef, List.append_assoc]
  have hSlen : S.length = c.assetDescBytes.length + c.bufferViewsBytes.length +
      c.bufferBytes.length + c.descriptorBytes.length := by
    simp [hSdef, List.length_append]
    omega
  have htb : BNLFile.toBytes z c = c.header.toBytes ++ z.compress S := rfl
  rw [htb]
  have hdropH : ∀ k : Nat, (c.header.toBytes ++ z.compress S).drop k =
      (c.header.toBytes).drop k ++ (z.compress S).drop (k - 40) := by
    intro k
    rw [List.drop_append_eq_append_drop, hH40]
  have hdrop40 : (c.header.toBytes ++ z.compress S).drop 40 = z.compress S :=
    List.drop_left' hH40
  have htake40 : (c.header.toBytes ++ z.compress S).take 40 = c.header.toBytes :=
    List.take_left' hH40
  -- drops of S at the section boundaries
  have hdropS1 : S.drop c.assetDescBytes.length =
      c.bufferViewsBytes ++ (c.bufferBytes ++ c.descriptorBytes) := by
    rw [hSassoc]; exact List.drop_left' rfl
  have hdropS2 : S.drop (c.assetDescBytes.length + c.bufferViewsBytes.length) =
      c.bufferBytes ++ c.descriptorBytes := by
    rw [← List.drop_drop, hdropS1]
    exact List.drop_left' rfl
  have hdropS3 : S.drop (c.assetDescBytes.length + c.bufferViewsBytes.length +
      c.bufferBytes.length) = c.descriptorBytes := by
    rw [← List.drop_drop, hdropS2]
    exact List.drop_left' rfl
  -- the combined buffer of the second parse is header bytes ++ S
  have hB2 : (c.header.toBytes ++ z.compress S).take 40 ++ S = c.header.toBytes ++ S := by
    rw [htake40]
  -- the second parse of the header
  have hp2 : parseHeader (c.header.toBytes ++ z.compress S) = c.header :=
    parseHeader_toBytes_append _ hbound _
  -- drops of the second combined buffer land in S
  have hdropB2 : ∀ k : Nat, (c.header.toBytes ++ S).drop (40 + k) = S.drop k := by
    intro k
    rw [← hH40]
    exact List.drop_append k
  -- section reads of the second parse
  have hr1 : readExact (c.header.toBytes ++ S) c.header.assetDescLoc.offset
      c.header.assetDescLoc.size = some c.assetDescBytes := by
    rw [hoff1]
    have hbnd : 40 + c.header.assetDescLoc.size ≤ (c.header.toBytes ++ S).length := by
      simp [List.length_append, hH40]
      omega
    rw [readExact_of_bounds hbnd]
    have h40 : (40 : Nat) = 40 + 0 := rfl
    rw [h40, hdropB2 0, List.drop_zero]
    rw [hSassoc, ← hl1]
    rw [List.take_left' rfl]
  have hr2 : readExact (c.header.toBytes ++ S) c.header.bufferViewsLoc.offset
      c.header.bufferViewsLoc.size = some c.bufferViewsBytes := by
    rw [hoff2]
    have hbnd : 40 + c.header.assetDescLoc.size + c.header.bufferViewsLoc.size ≤
        (c.header.toBytes ++ S).length := by
      simp [List.length_append, hH40]
      omega
    rw [show 40 + c.header.assetDescLoc.size + c.header.bufferViewsLoc.size =
      (40 + c.header.assetDescLoc.size) + c.header.bufferViewsLoc.size from rfl] at hbnd
    rw [readExact_of_bounds hbnd]
    rw [show (40 + c.header.assetDescLoc.size) = 40 + c.assetDescBytes.length by omega]
    rw [hdropB2, hdropS1, ← hl2, List.take_left' rfl]
  have hr3 : readExact (c.header.toBytes ++ S) c.header.bufferLoc.offset
      c.header.bufferLoc.size = some c.bufferBytes := by
    rw [hoff3, hoff2]
    have hbnd : 40 + c.header.assetDescLoc.size + c.header.bufferViewsLoc.size +
        c.header.bufferLoc.size ≤ (c.header.toBytes ++ S).length := by
      simp [List.length_append, hH40]
      omega
    rw [readExact_of_bounds (by omega)]
    rw [show (40 + c.header.assetDescLoc.size + c.header.bufferViewsLoc.size) =
      40 + (c.assetDescBytes.length + c.bufferViewsBytes.length) by omega]
    rw [hdropB2, hdropS2, ← hl3, List.take_left' rfl]
  have hr4 : readExact (c.header.toBytes ++ S) c.header.descriptorLoc.offset
      c.header.descriptorLoc.size = some c.descriptorBytes := by
    rw [hoff4, hoff3, hoff2]
    have hbnd : 40 + c.header.assetDescLoc.size + c.header.bufferViewsLoc.size +
        c.header.bufferLoc.size + c.header.descriptorLoc.size ≤
        (c.header.toBytes ++ S).length := by
      simp [List.length_append, hH40]
      omega
    rw [readExact_of_bounds (by omega)]
    rw [show (40 + c.header.assetDescLoc.size + c.header.bufferViewsLoc.size +
      c.header.bufferLoc.size) = 40 + (c.assetDescBytes.length +
      c.bufferViewsBytes.length + c.bufferBytes.length) by omega]
    rw [hdropB2, hdropS3, ← hl4, List.take_length]
  -- the record-table reads of the two parses agree row by row
  rw [hoff1] at hb1 he1 hRD
  have hRD2 : readDescs (c.header.toBytes ++ S) c.header.assetDescLoc.offset
      (c.header.assetDescLoc.size / 160) = some c.assetDescriptions := by
    rw [hoff1, ← hRD]
    unfold readDescs
    apply readDescsAux_congr
    intro j hj0 hjk
    have hjn : j * 160 + 160 ≤ c.header.assetDescLoc.size := by
      have h160 : (0 : Nat) < 160 := by norm_num
      have hj1 : j + 1 ≤ c.header.assetDescLoc.size / 160 := by omega
      have hmul := (Nat.le_div_iff_mul_le h160).mp hj1
      omega
    unfold readDesc
    have hA : readExact (c.header.toBytes ++ S) (40 + j * 160) 160 =
        some ((c.assetDescBytes.drop (j * 160)).take 160) := by
      have hbnd : (40 + j * 160) + 160 ≤ (c.header.toBytes ++ S).length := by
        simp [List.length_append, hH40, hSlen]
        omega
      rw [readExact_of_bounds hbnd, hdropB2, hSassoc,
        slice_append_left _ _ _ _ (by omega)]
    have hB : readExact B1 (40 + j * 160) 160 =
        some ((c.assetDescBytes.drop (j * 160)).take 160) := by
      have hbnd : (40 + j * 160) + 160 ≤ B1.length := by omega
      rw [readExact_of_bounds hbnd, he1, List.drop_take, List.take_take,
        List.drop_drop]
      rw [min_eq_left (by omega)]
    rw [hA, hB]
  -- assemble the second parse
  have hlen2 : ¬ (c.header.toBytes ++ z.compress S).length < 40 := by
    simp [List.length_append, hH40]
  have hdec2 : z.decompress ((c.header.toBytes ++ z.compress S).drop 40) = some S := by
    rw [hdrop40]
    exact hloss S
  have hRD2x : readDescs ((c.header.toBytes ++ z.compress S).take 40 ++ S)
      c.header.assetDescLoc.offset (c.header.assetDescLoc.size / 160) =
      some c.assetDescriptions := by
    rw [hB2]
    exact hRD2
  have hr1x : readExact ((c.header.toBytes ++ z.compress S).take 40 ++ S)
      c.header.assetDescLoc.offset c.header.assetDescLoc.size = some c.assetDescBytes := by
    rw [hB2]; exact hr1
  have hr2x : readExact ((c.header.toBytes ++ z.compress S).take 40 ++ S)
      c.header.bufferViewsLoc.offset c.header.bufferViewsLoc.size = some c.bufferViewsBytes := by
    rw [hB2]; exact hr2
  have hr3x : readExact ((c.header.toBytes ++ z.compress S).take 40 ++ S)
      c.header.bufferLoc.offset c.header.bufferLoc.size = some c.bufferBytes := by
    rw [hB2]; exact hr3
  have hr4x : readExact ((c.header.toBytes ++ z.compress S).take 40 ++ S)
      c.header.descriptorLoc.offset c.header.descriptorLoc.size = some c.descriptorBytes := by
    rw [hB2]; exact hr4
  exact fromBytes_build z (c.header.toBytes ++ z.compress S) c.header S
    c.assetDescriptions c.assetDescBytes c.bufferViewsBytes c.bufferBytes c.descriptorBytes
    hlen2 hp2 hdec2 hRD2x hr1x hr2x hr3x hr4x

/-- C1 witness: the concrete contiguous-layout container `c2Bytes` round-trips
to a structurally equal container. -/
theorem C1_roundtrip_contiguous_witness :
    BNLFile.fromBytes identZ (BNLFile.toBytes identZ (exContainer c2Bytes)) =
      some (.ok (exContainer c2Bytes)) :=
  C1_roundtrip_contiguous identZ c2Bytes (exContainer c2Bytes)
    (by decide) (by decide) (fun y => rfl) (by decide) (by decide) (by decide) (by decide)
